import Mathlib

/-!
Shallow embedding of the outcomes analytics engine of the qivr-app repository
(`src/lib/analytics.ts`), together with proofs about its behaviour.

Modelling conventions:
* A date is a rational number counting days since the epoch
  (the JavaScript value `new Date(s).getTime() / 86400000`).  The database
  columns involved (`assessment_date`, `recorded_date`) have SQL type `date`,
  so in the running application these values are whole numbers; the embedding
  keeps them general rationals and states whole-day hypotheses only where a
  property depends on them.
* Scores are rationals (`percentage_score` is `numeric`, `pain_score` an
  integer 0–10 stored in a rational).
* JavaScript `null` is `Option.none`.
* A JavaScript division whose divisor can actually be zero is modelled by
  `jsDiv`, which mirrors IEEE-754 semantics for exact operands.
-/

namespace Analytics

/-- One row of `odi_assessments` as selected by `fetchODIAssessments`
(`id, assessment_date, percentage_score, is_baseline`). -/
structure ODIAssessment where
  id : String
  assessment_date : ℚ
  percentage_score : ℚ
  is_baseline : Bool
deriving DecidableEq, Repr

/-- One row of `vas_pain_scores` as selected by `fetchVASScores`
(`recorded_date, pain_score`). -/
structure VASScore where
  recorded_date : ℚ
  pain_score : ℚ
deriving DecidableEq, Repr

/-- A JavaScript number that is either finite (kept exact as a rational) or
one of the non-finite values that division by zero can produce. -/
inductive JSNumber where
  | finite (q : ℚ)
  | posInf
  | negInf
  | nan
deriving DecidableEq, Repr

/-- IEEE-754 division for exact operands, as JavaScript performs it:
`a / 0` is `Infinity` for `a > 0`, `-Infinity` for `a < 0`, `NaN` for `0 / 0`. -/
def jsDiv (a b : ℚ) : JSNumber :=
  if b = 0 then
    if 0 < a then .posInf else if a < 0 then .negInf else .nan
  else .finite (a / b)

/-- The constant `ODI_MCID_THRESHOLD`. -/
def ODI_MCID_THRESHOLD : ℚ := 10

/-- `assessments.find(a => a.is_baseline) || assessments[0]`: the first record
flagged as baseline, or the first record; `none` only on the empty list. -/
def baselineOf (assessments : List ODIAssessment) : Option ODIAssessment :=
  match assessments.find? (fun a => a.is_baseline) with
  | some b => some b
  | none => assessments.head?

/-- Shallow embedding of `calculateTimeToMCID`.  The loop with an early
`return` is the first element of the scan satisfying the improvement test;
`Math.ceil` of the day difference is `Int.ceil`. -/
def calculateTimeToMCID (assessments : List ODIAssessment) : Option ℤ :=
  if assessments.length < 2 then none
  else
    match baselineOf assessments with
    | none => none
    | some baseline =>
      match assessments.find?
          (fun a => decide (ODI_MCID_THRESHOLD ≤ baseline.percentage_score - a.percentage_score)) with
      | some a => some ⌈a.assessment_date - baseline.assessment_date⌉
      | none => none

/-- The body of `calculateTrajectorySlope` after the `slice(-4)` window has
been taken: least-squares slope of score against index, rescaled to a weekly
rate by the elapsed time between the first and last window points.  For a
window of at least two points the index variance `n * sumXX - sumX * sumX` is
positive, so the rational division computing `slope` agrees with JavaScript;
the final division's divisor `weeksDiff` genuinely can be zero, hence `jsDiv`. -/
def windowSlope (recent : List ODIAssessment) : Option JSNumber :=
  if recent.length < 2 then none
  else
    let n : ℚ := recent.length
    let sumX : ℚ := (recent.enum.map fun p => (p.1 : ℚ)).sum
    let sumY : ℚ := (recent.map fun a => a.percentage_score).sum
    let sumXY : ℚ := (recent.enum.map fun p => (p.1 : ℚ) * p.2.percentage_score).sum
    let sumXX : ℚ := (recent.enum.map fun p => (p.1 : ℚ) * (p.1 : ℚ)).sum
    let slope := (n * sumXY - sumX * sumY) / (n * sumXX - sumX * sumX)
    match recent.head?, recent.getLast? with
    | some first, some lastA =>
      let daysDiff := lastA.assessment_date - first.assessment_date
      let weeksDiff := daysDiff / 7
      some (jsDiv (slope * (n - 1)) weeksDiff)
    | _, _ => none

/-- Shallow embedding of `calculateTrajectorySlope`: guard, then the last
up-to-4 window (`slice(-4)`), then the windowed computation. -/
def calculateTrajectorySlope (assessments : List ODIAssessment) : Option JSNumber :=
  if assessments.length < 2 then none
  else windowSlope (assessments.drop (assessments.length - 4))

/-- Shallow embedding of `calculateWeeksSinceBaseline`; `now` is the current
date in days. -/
def calculateWeeksSinceBaseline (assessments : List ODIAssessment) (now : ℚ) : ℤ :=
  if assessments.length = 0 then 0
  else
    match baselineOf assessments with
    | none => 0
    | some baseline => ⌊(now - baseline.assessment_date) / 7⌋

/-- Shallow embedding of `detectPlateau`: absolute adjacent changes over the
last up-to-4 window, all strictly below 5. -/
def detectPlateau (assessments : List ODIAssessment) : Bool :=
  if assessments.length < 4 then false
  else
    let recent := assessments.drop (assessments.length - 4)
    let changes := (recent.zip recent.tail).map
      fun p => |p.2.percentage_score - p.1.percentage_score|
    changes.all fun change => decide (change < 5)

/-- The nearest-neighbour search `vasScores.reduce(...)`: JavaScript's `reduce`
without an initial value starts from the first element, so the fold runs over
the tail with the head as accumulator; the comparison is strict, so on ties the
earlier-seen reading wins. -/
def closestVAS (odiDate : ℚ) (v : VASScore) (rest : List VASScore) : VASScore :=
  rest.foldl
    (fun closest vas =>
      if |vas.recorded_date - odiDate| < |closest.recorded_date - odiDate| then vas
      else closest)
    v

/-- The pair-building loop of `calculatePainFunctionCorrelation`: each
assessment is matched with its closest pain reading, kept only when the date
gap is at most 3 days, and rescaled (`pain_score * 10`).  The empty-pain-series
case is unreachable behind the length-3 guard. -/
def matchedPairs (odiAssessments : List ODIAssessment) (vasScores : List VASScore) :
    List (ℚ × ℚ) :=
  match vasScores with
  | [] => []
  | v :: rest =>
    odiAssessments.filterMap fun odi =>
      let c := closestVAS odi.assessment_date v rest
      if |c.recorded_date - odi.assessment_date| ≤ 3 then
        some (odi.percentage_score, c.pain_score * 10)
      else none

/-- Shallow embedding of `calculatePainFunctionCorrelation`.  The JavaScript
function returns `numerator / Math.sqrt(radicand)`; the embedding returns the
pair `(numerator, radicand)` so that everything stays rational.  The source's
`denominator === 0` test is `radicand = 0`: the radicand is a product of two
second moments, proved nonnegative below, and `Math.sqrt x = 0` iff `x = 0`
for `x ≥ 0`. -/
def calculatePainFunctionCorrelation (odiAssessments : List ODIAssessment)
    (vasScores : List VASScore) : Option (ℚ × ℚ) :=
  if odiAssessments.length < 3 ∨ vasScores.length < 3 then none
  else
    let pairs := matchedPairs odiAssessments vasScores
    if pairs.length < 3 then none
    else
      let n : ℚ := pairs.length
      let sumX : ℚ := (pairs.map fun p => p.1).sum
      let sumY : ℚ := (pairs.map fun p => p.2).sum
      let sumXY : ℚ := (pairs.map fun p => p.1 * p.2).sum
      let sumXX : ℚ := (pairs.map fun p => p.1 * p.1).sum
      let sumYY : ℚ := (pairs.map fun p => p.2 * p.2).sum
      let numerator := n * sumXY - sumX * sumY
      let radicand := (n * sumXX - sumX * sumX) * (n * sumYY - sumY * sumY)
      if radicand = 0 then none else some (numerator, radicand)

/-- The `error` object of a failed storage query. -/
structure DBError where
  message : String
deriving DecidableEq, Repr

/-- The storage collaborator as `calculateAnalytics` sees it: the outcome each
of the three queries it issues would have. -/
structure Storage where
  odi : Except DBError (List ODIAssessment)
  vas : Except DBError (List VASScore)
  upsert : Except DBError Unit

/-- `fetchODIAssessments`: `if (error) throw error; return data || []`. -/
def fetchODIAssessments (s : Storage) : Except DBError (List ODIAssessment) :=
  s.odi

/-- `fetchVASScores`: on error it logs and returns the empty list instead of
throwing. -/
def fetchVASScores (s : Storage) : Except DBError (List VASScore) :=
  match s.vas with
  | .error _ => .ok []
  | .ok data => .ok data

/-- `saveAnalytics`: the upsert is wrapped in `try/catch`, so a persistence
failure is swallowed (logged only). -/
def saveAnalytics (s : Storage) : Except DBError Unit :=
  match s.upsert with
  | .error _ => .ok ()
  | .ok _ => .ok ()

/-- The `AnalyticsResult` record. -/
structure AnalyticsResult where
  timeToMCID : Option ℤ
  trajectorySlope : Option JSNumber
  painFunctionCorrelation : Option (ℚ × ℚ)
  weeksSinceBaseline : ℤ
  plateauDetected : Bool
deriving DecidableEq, Repr

/-- The five field computations of `calculateAnalytics`, as a pure function of
the two fetched series and the current date. -/
def computeSnapshot (odiData : List ODIAssessment) (vasData : List VASScore)
    (now : ℚ) : AnalyticsResult where
  timeToMCID := calculateTimeToMCID odiData
  trajectorySlope := calculateTrajectorySlope odiData
  painFunctionCorrelation := calculatePainFunctionCorrelation odiData vasData
  weeksSinceBaseline := calculateWeeksSinceBaseline odiData now
  plateauDetected := detectPlateau odiData

/-- Shallow embedding of `calculateAnalytics`: fetch both series, compute the
five fields, attempt the best-effort save, return the result. -/
def calculateAnalytics (s : Storage) (now : ℚ) : Except DBError AnalyticsResult := do
  let odiData ← fetchODIAssessments s
  let vasData ← fetchVASScores s
  let result := computeSnapshot odiData vasData now
  let _ ← saveAnalytics s
  return result

/-- The `treatment_type` enum of `getBenchmarkComparison`. -/
inductive TreatmentType where
  | post_surgery
  | conservative
  | physical_therapy
deriving DecidableEq, Repr

/-- One row of `population_benchmarks`. -/
structure BenchmarkRow where
  treatment_type : TreatmentType
  weeks_post_treatment : ℤ
  mean_odi_score : ℚ
  percentile_25 : ℚ
  percentile_50 : ℚ
  percentile_75 : ℚ
deriving DecidableEq, Repr

/-- The benchmark record built by `getBenchmarkComparison`. -/
structure BenchmarkComparison where
  mean : ℚ
  percentile : ℕ
  interpretation : String
deriving DecidableEq, Repr

/-- The storage query of `getBenchmarkComparison`: rows of the matching
treatment type with `weeks_post_treatment ≤ weeksSinceTreatment`, ordered by
`weeks_post_treatment` descending, `limit 1` / `maybeSingle` — i.e. a row with
the greatest eligible week count, or `none` when no row is eligible. -/
def selectBenchmark (rows : List BenchmarkRow) (treatmentType : TreatmentType)
    (weeksSinceTreatment : ℤ) : Option BenchmarkRow :=
  (rows.filter fun r =>
      decide (r.treatment_type = treatmentType) &&
      decide (r.weeks_post_treatment ≤ weeksSinceTreatment)).foldl
    (fun best r =>
      match best with
      | none => some r
      | some b => if b.weeks_post_treatment < r.weeks_post_treatment then some r else some b)
    none

/-- Shallow embedding of `getBenchmarkComparison`, parametrised by the
benchmark table contents. -/
def getBenchmarkComparison (rows : List BenchmarkRow) (patientScore : ℚ)
    (treatmentType : TreatmentType) (weeksSinceTreatment : ℤ) :
    Option BenchmarkComparison :=
  match selectBenchmark rows treatmentType weeksSinceTreatment with
  | none => none
  | some data =>
    let percentile : ℕ :=
      if patientScore ≤ data.percentile_25 then 25
      else if patientScore ≤ data.percentile_50 then 50
      else if patientScore ≤ data.percentile_75 then 75
      else 90
    let interp : String :=
      if percentile ≤ 25 then "excellent"
      else if percentile ≤ 50 then "above_average"
      else if percentile ≤ 75 then "average"
      else "below_average"
    some ⟨data.mean_odi_score, percentile, interp⟩

/-! ### Helper lemmas -/

/-- The first element of `pre ++ a :: post` satisfying `p`, when all of `pre`
fails `p` and `a` satisfies it, is `a`. -/
theorem find?_first_match {α : Type} (p : α → Bool) (pre : List α) (a : α)
    (post : List α) (hpre : ∀ x ∈ pre, ¬ p x = true) (ha : p a = true) :
    (pre ++ a :: post).find? p = some a := by
  induction pre with
  | nil => simpa using List.find?_cons_of_pos post ha
  | cons x xs ih =>
    have hx : ¬ p x = true := hpre x (by simp)
    rw [List.cons_append, List.find?_cons_of_neg (xs ++ a :: post) hx]
    exact ih fun y hy => hpre y (by simp [hy])

/-- In a list that is pairwise related by `R`, the element `find?` returns
relates (or is equal) to every element satisfying the predicate. -/
theorem find?_min_of_pairwise {α : Type} {R : α → α → Prop} {p : α → Bool}
    {l : List α} {e : α} (hp : l.Pairwise R) (hfind : l.find? p = some e) :
    ∀ x ∈ l, p x = true → e = x ∨ R e x := by
  induction l with
  | nil => simp at hfind
  | cons a as ih =>
    rcases hpa : p a with _ | _
    · rw [List.find?_cons_of_neg as (by simp [hpa])] at hfind
      intro x hx hpx
      rcases List.mem_cons.mp hx with rfl | hxs
      · rw [hpa] at hpx; cases hpx
      · exact ih (List.Pairwise.sublist (List.sublist_cons_self a as) hp) hfind x hxs hpx
    · rw [List.find?_cons_of_pos as hpa] at hfind
      obtain rfl : a = e := by simpa using hfind
      intro x hx hpx
      rcases List.mem_cons.mp hx with rfl | hxs
      · exact Or.inl rfl
      · exact Or.inr ((List.pairwise_cons.mp hp).1 x hxs)

/-! ### C1: time to MCID -/

/-- **C1.** For a series of fewer than 2 assessments `calculateTimeToMCID` is
`null`; otherwise, with the baseline resolved to the flagged record (or the
first), the scan returns the ceiling of the day difference from the baseline
to the first record whose improvement reaches 10, `null` when no record
qualifies, and any returned value witnesses a genuine score drop, so the
baseline compared against itself never triggers. -/
theorem timeToMCID_spec (l : List ODIAssessment) :
    (l.length < 2 → calculateTimeToMCID l = none) ∧
    (∀ b, 2 ≤ l.length → baselineOf l = some b →
      ((∀ a ∈ l, b.percentage_score - a.percentage_score < 10) →
        calculateTimeToMCID l = none) ∧
      (∀ pre a post, l = pre ++ a :: post →
        (∀ x ∈ pre, b.percentage_score - x.percentage_score < 10) →
        10 ≤ b.percentage_score - a.percentage_score →
        calculateTimeToMCID l = some ⌈a.assessment_date - b.assessment_date⌉) ∧
      (∀ d, calculateTimeToMCID l = some d →
        ∃ a ∈ l, 10 ≤ b.percentage_score - a.percentage_score ∧
          a.percentage_score ≠ b.percentage_score)) := by
  constructor
  · intro h
    simp [calculateTimeToMCID, h]
  · intro b hlen hb
    have hlen' : ¬ l.length < 2 := by omega
    refine ⟨?_, ?_, ?_⟩
    · intro hall
      have hnone : l.find?
          (fun a => decide (ODI_MCID_THRESHOLD ≤ b.percentage_score - a.percentage_score))
          = none := by
        rw [List.find?_eq_none]
        intro x hx
        simp only [decide_eq_true_eq, ODI_MCID_THRESHOLD, not_le]
        exact hall x hx
      simp [calculateTimeToMCID, hlen', hb, hnone]
    · intro pre a post hl hpre h10
      have hfind : l.find?
          (fun a => decide (ODI_MCID_THRESHOLD ≤ b.percentage_score - a.percentage_score))
          = some a := by
        rw [hl]
        refine find?_first_match _ pre a post ?_ ?_
        · intro x hx
          simp only [decide_eq_true_eq, ODI_MCID_THRESHOLD, not_le]
          exact hpre x hx
        · simpa [ODI_MCID_THRESHOLD] using h10
      simp [calculateTimeToMCID, hlen', hb, hfind]
    · intro d hd
      simp only [calculateTimeToMCID, hlen', if_false, hb] at hd
      rcases hfind : l.find?
          (fun a => decide (ODI_MCID_THRESHOLD ≤ b.percentage_score - a.percentage_score))
          with _ | e
      · rw [hfind] at hd; cases hd
      · have he : 10 ≤ b.percentage_score - e.percentage_score := by
          simpa [ODI_MCID_THRESHOLD] using List.find?_some hfind
        exact ⟨e, List.mem_of_find?_eq_some hfind, he, by intro heq; rw [heq] at he; linarith⟩

/-- Witness for C1 at the spec's own example: baseline 70 on day 0, a 12-point
drop on day 21 gives 21 days. -/
theorem timeToMCID_spec_witness :
    calculateTimeToMCID [⟨"a", 0, 70, true⟩, ⟨"b", 21, 58, false⟩] = some 21 := by
  have h := (((timeToMCID_spec [⟨"a", 0, 70, true⟩, ⟨"b", 21, 58, false⟩]).2
      ⟨"a", 0, 70, true⟩ (by norm_num) (by norm_num [baselineOf, List.find?])).2.1
      [⟨"a", 0, 70, true⟩] ⟨"b", 21, 58, false⟩ [] rfl
      (by intro x hx; simp at hx; subst hx; norm_num) (by norm_num))
  rw [h]
  norm_num

/-! ### C2: zero elapsed time in the trajectory window -/

/-- **C2.** The spec requires zero elapsed window time to yield `null`; the
code instead divides by zero.  With two same-day assessments scoring 50 and
40, `calculateTrajectorySlope` returns `-Infinity`, not `null`. -/
theorem trajectorySlope_zero_elapsed_not_null :
    Analytics.calculateTrajectorySlope
      [⟨"a", 0, 50, false⟩, ⟨"b", 0, 40, false⟩] = some .negInf := by
  norm_num [calculateTrajectorySlope, windowSlope, jsDiv, List.enum, List.enumFrom]

/-! ### C4: weeks since baseline -/

/-- **C4** counterexample: a single assessment dated 7 days after `now`
makes `calculateWeeksSinceBaseline` return `-1` — the result is not clamped
to `0` when the baseline lies in the future. -/
theorem weeksSinceBaseline_negative :
    calculateWeeksSinceBaseline [⟨"a", 7, 50, false⟩] 0 = -1 := by
  norm_num [calculateWeeksSinceBaseline, baselineOf, List.find?]

/-- **C4** (amended).  `calculateWeeksSinceBaseline` returns 0 on an empty
series and `⌊(now − baselineDate) / 7⌋` otherwise; the result is nonnegative
whenever the baseline date is not in the future, but it is not clamped. -/
theorem weeksSinceBaseline_spec (l : List ODIAssessment) (now : ℚ) :
    (l = [] → calculateWeeksSinceBaseline l now = 0) ∧
    (∀ b, baselineOf l = some b →
      calculateWeeksSinceBaseline l now = ⌊(now - b.assessment_date) / 7⌋ ∧
      (b.assessment_date ≤ now → 0 ≤ calculateWeeksSinceBaseline l now)) := by
  constructor
  · rintro rfl; rfl
  · intro b hb
    have hne : l ≠ [] := by rintro rfl; simp [baselineOf] at hb
    have hlen : ¬ l.length = 0 := by simpa [List.length_eq_zero] using hne
    have heq : calculateWeeksSinceBaseline l now = ⌊(now - b.assessment_date) / 7⌋ := by
      simp [calculateWeeksSinceBaseline, hlen, hb]
    refine ⟨heq, fun hle => ?_⟩
    rw [heq]
    exact Int.floor_nonneg.mpr (div_nonneg (by linarith) (by norm_num))

/-- Witness for C4 (amended): baseline on day 0, now day 22, gives
`⌊22/7⌋ = 3 ≥ 0`. -/
theorem weeksSinceBaseline_spec_witness :
    calculateWeeksSinceBaseline [⟨"a", 0, 50, true⟩] 22 = 3 ∧
    (0 : ℤ) ≤ calculateWeeksSinceBaseline [⟨"a", 0, 50, true⟩] 22 := by
  have h := (weeksSinceBaseline_spec [⟨"a", 0, 50, true⟩] 22).2 ⟨"a", 0, 50, true⟩
    (by norm_num [baselineOf, List.find?])
  exact ⟨by rw [h.1]; norm_num, h.2 (by norm_num)⟩

/-! ### C6: plateau detection -/

/-- **C6.** `detectPlateau` is `false` below 4 assessments; on any series
ending in four assessments it is `true` exactly when all three adjacent
absolute score changes of those four are strictly below 5; the spec's two
worked examples behave as stated. -/
theorem detectPlateau_spec :
    (∀ l : List ODIAssessment, l.length < 4 → detectPlateau l = false) ∧
    (∀ (pre : List ODIAssessment) (a b c d : ODIAssessment),
      (detectPlateau (pre ++ [a, b, c, d]) = true ↔
        |b.percentage_score - a.percentage_score| < 5 ∧
        |c.percentage_score - b.percentage_score| < 5 ∧
        |d.percentage_score - c.percentage_score| < 5)) ∧
    detectPlateau
      [⟨"a", 0, 50, false⟩, ⟨"b", 7, 50, false⟩, ⟨"c", 14, 50, false⟩,
        ⟨"d", 21, 50, false⟩] = true ∧
    detectPlateau
      [⟨"a", 0, 50, false⟩, ⟨"b", 7, 40, false⟩, ⟨"c", 14, 30, false⟩,
        ⟨"d", 21, 20, false⟩] = false := by
  refine ⟨?_, ?_, ?_, ?_⟩
  · intro l hl
    simp [detectPlateau, hl]
  · intro pre a b c d
    have hlen : ¬ (pre ++ [a, b, c, d]).length < 4 := by simp [List.length_append]
    have harith : (pre ++ [a, b, c, d]).length - 4 = pre.length := by
      simp [List.length_append]
    have hdrop : (pre ++ [a, b, c, d]).drop ((pre ++ [a, b, c, d]).length - 4)
        = [a, b, c, d] := by
      rw [harith, List.drop_left]
    simp [detectPlateau, hlen, hdrop, List.zip, List.zipWith, and_assoc]
  · norm_num [detectPlateau, List.zip, List.zipWith, List.all]
  · norm_num [detectPlateau, List.zip, List.zipWith, List.all]

/-- Witness for C6: a three-element series is below the length precondition,
so plateau is `false`. -/
theorem detectPlateau_spec_witness :
    detectPlateau [⟨"a", 0, 50, false⟩, ⟨"b", 7, 50, false⟩, ⟨"c", 14, 50, false⟩]
      = false :=
  detectPlateau_spec.1 _ (by norm_num)

/-! ### C3: propagation of fetch errors -/

/-- **C3** counterexample: a failing pain-score fetch does **not** fail the
whole call — `fetchVASScores` swallows the error and substitutes the empty
list, so `calculateAnalytics` still succeeds. -/
theorem vas_fetch_error_recovered :
    calculateAnalytics ⟨.ok [⟨"a", 0, 70, true⟩, ⟨"b", 21, 58, false⟩],
      .error ⟨"network"⟩, .ok ()⟩ 0 =
      .ok (computeSnapshot [⟨"a", 0, 70, true⟩, ⟨"b", 21, 58, false⟩] [] 0) := rfl

/-- **C3** (amended).  Only a failing assessments fetch propagates as a
failure of the whole `calculateAnalytics` call; a failing pain-scores fetch
is recovered internally by substituting the empty series. -/
theorem fetch_error_semantics (s : Storage) (now : ℚ) :
    (∀ e, s.odi = .error e → calculateAnalytics s now = .error e) ∧
    (∀ e odiData, s.odi = .ok odiData → s.vas = .error e →
      calculateAnalytics s now = .ok (computeSnapshot odiData [] now)) := by
  obtain ⟨o, v, u⟩ := s
  constructor
  · rintro e rfl
    rcases v with e' | l' <;> rcases u with e'' | u' <;> rfl
  · rintro e odiData rfl rfl
    rcases u with e'' | u' <;> rfl

/-- Witness for C3 (amended): a concrete assessments-fetch failure propagates
its error. -/
theorem fetch_error_semantics_witness :
    calculateAnalytics ⟨.error ⟨"denied"⟩, .ok [], .ok ()⟩ 0 = .error ⟨"denied"⟩ :=
  (fetch_error_semantics ⟨.error ⟨"denied"⟩, .ok [], .ok ()⟩ 0).1 ⟨"denied"⟩ rfl

/-! ### C9: purity of the returned snapshot -/

/-- **C9.** The returned snapshot is a pure function of the two fetched
series and the current date: any two storages agreeing on the fetched data
give identical results (whatever the upsert outcome), a successful double
fetch returns exactly `computeSnapshot`, and a failing upsert is swallowed
by `saveAnalytics`. -/
theorem analytics_pure (s s' : Storage) (now : ℚ)
    (hodi : s'.odi = s.odi) (hvas : s'.vas = s.vas) :
    calculateAnalytics s' now = calculateAnalytics s now ∧
    (∀ odiData vasData, s.odi = .ok odiData → s.vas = .ok vasData →
      calculateAnalytics s now = .ok (computeSnapshot odiData vasData now)) ∧
    (∀ e, s.upsert = .error e → saveAnalytics s = .ok ()) := by
  obtain ⟨o, v, u⟩ := s
  obtain ⟨o', v', u'⟩ := s'
  simp only at hodi hvas
  subst hodi
  subst hvas
  refine ⟨?_, ?_, ?_⟩
  · rcases o' with e | l <;> rcases v' with e' | l' <;>
      rcases u with e'' | u₀ <;> rcases u' with e''' | u₁ <;> rfl
  · rintro odiData vasData rfl rfl
    rcases u with e'' | u₀ <;> rfl
  · rintro e rfl
    rfl

/-- Witness for C9: two storages with the same data but opposite upsert
outcomes return the same result. -/
theorem analytics_pure_witness :
    calculateAnalytics ⟨.ok [], .ok [], .error ⟨"disk"⟩⟩ 0 =
      calculateAnalytics ⟨.ok [], .ok [], .ok ()⟩ 0 :=
  (analytics_pure ⟨.ok [], .ok [], .ok ()⟩ ⟨.ok [], .ok [], .error ⟨"disk"⟩⟩ 0
    rfl rfl).1

/-! ### C7: benchmark comparison buckets -/

/-- **C7.** With no eligible benchmark row the comparison is `null`; with a
matched row the percentile/interpretation buckets are exactly:
`score ≤ p25 ↦ 25/"excellent"`, `p25 < score ≤ p50 ↦ 50/"above_average"`,
`p50 < score ≤ p75 ↦ 75/"average"`, `p75 < score ↦ 90/"below_average"`. -/
theorem benchmark_spec (rows : List BenchmarkRow) (score : ℚ)
    (t : TreatmentType) (w : ℤ) :
    ((∀ r ∈ rows, r.treatment_type = t → ¬ r.weeks_post_treatment ≤ w) →
      getBenchmarkComparison rows score t w = none) ∧
    (selectBenchmark rows t w = none → getBenchmarkComparison rows score t w = none) ∧
    (∀ r, selectBenchmark rows t w = some r →
      (score ≤ r.percentile_25 →
        getBenchmarkComparison rows score t w = some ⟨r.mean_odi_score, 25, "excellent"⟩) ∧
      (r.percentile_25 < score → score ≤ r.percentile_50 →
        getBenchmarkComparison rows score t w
          = some ⟨r.mean_odi_score, 50, "above_average"⟩) ∧
      (r.percentile_25 ≤ r.percentile_50 → r.percentile_50 < score →
        score ≤ r.percentile_75 →
        getBenchmarkComparison rows score t w
          = some ⟨r.mean_odi_score, 75, "average"⟩) ∧
      (r.percentile_25 ≤ r.percentile_50 → r.percentile_50 ≤ r.percentile_75 →
        r.percentile_75 < score →
        getBenchmarkComparison rows score t w
          = some ⟨r.mean_odi_score, 90, "below_average"⟩)) := by
  refine ⟨?_, ?_, ?_⟩
  · intro h
    have hfil : (rows.filter fun r =>
        decide (r.treatment_type = t) && decide (r.weeks_post_treatment ≤ w)) = [] := by
      rw [List.filter_eq_nil_iff]
      intro r hr
      simp only [Bool.and_eq_true, decide_eq_true_eq, not_and]
      exact h r hr
    have hsel : selectBenchmark rows t w = none := by
      rw [selectBenchmark, hfil]
      rfl
    simp [getBenchmarkComparison, hsel]
  · intro hsel
    simp [getBenchmarkComparison, hsel]
  · intro r hsel
    refine ⟨?_, ?_, ?_, ?_⟩
    · intro h1
      norm_num [getBenchmarkComparison, hsel, h1]
    · intro h1 h2
      have h1' : ¬ score ≤ r.percentile_25 := not_le.mpr h1
      norm_num [getBenchmarkComparison, hsel, h1', h2]
    · intro hm h1 h2
      have h1' : ¬ score ≤ r.percentile_25 := not_le.mpr (lt_of_le_of_lt hm h1)
      have h2' : ¬ score ≤ r.percentile_50 := not_le.mpr h1
      norm_num [getBenchmarkComparison, hsel, h1', h2', h2]
    · intro hm1 hm2 h1
      have h1' : ¬ score ≤ r.percentile_25 :=
        not_le.mpr (lt_of_le_of_lt (le_trans hm1 hm2) h1)
      have h2' : ¬ score ≤ r.percentile_50 := not_le.mpr (lt_of_le_of_lt hm2 h1)
      have h3' : ¬ score ≤ r.percentile_75 := not_le.mpr h1
      norm_num [getBenchmarkComparison, hsel, h1', h2', h3']

/-- Witness for C7 at the spec's example: score 18 equals p50 of the sample
row (13/18/24 at week 24), landing in the `≤ p50` bucket: 50,
"above_average". -/
theorem benchmark_spec_witness :
    getBenchmarkComparison [⟨.post_surgery, 24, 20, 13, 18, 24⟩] 18 .post_surgery 24 =
      some ⟨20, 50, "above_average"⟩ := by
  have h := ((benchmark_spec [⟨.post_surgery, 24, 20, 13, 18, 24⟩] 18 .post_surgery 24).2.2
      ⟨.post_surgery, 24, 20, 13, 18, 24⟩
      (by norm_num [selectBenchmark, List.filter, List.foldl])).2.1
  exact h (by norm_num) (by norm_num)

/-! ### C8: sign of the trajectory slope -/

/-- Closed form of `windowSlope` on a two-point window. -/
theorem windowSlope_pair (a b : ODIAssessment) :
    windowSlope [a, b] = some (jsDiv (b.percentage_score - a.percentage_score)
      ((b.assessment_date - a.assessment_date) / 7)) := by
  norm_num [windowSlope, List.enum, List.enumFrom]
  congr 1
  ring

/-- Closed form of `windowSlope` on a three-point window. -/
theorem windowSlope_triple (a b c : ODIAssessment) :
    windowSlope [a, b, c] = some (jsDiv (c.percentage_score - a.percentage_score)
      ((c.assessment_date - a.assessment_date) / 7)) := by
  norm_num [windowSlope, List.enum, List.enumFrom]
  congr 1
  ring

/-- Closed form of `windowSlope` on a four-point window. -/
theorem windowSlope_quad (a b c d : ODIAssessment) :
    windowSlope [a, b, c, d] = some (jsDiv
      ((9 * (d.percentage_score - a.percentage_score)
          + 3 * (c.percentage_score - b.percentage_score)) / 10)
      ((d.assessment_date - a.assessment_date) / 7)) := by
  norm_num [windowSlope, List.enum, List.enumFrom]
  congr 1
  ring

/-- Sign of `windowSlope` on a window of 2–4 points with strictly increasing
dates: monotone scores force the sign of the returned finite slope. -/
theorem windowSlope_sign_cases (recent : List ODIAssessment)
    (h2 : 2 ≤ recent.length) (h4 : recent.length ≤ 4)
    (hd : recent.Pairwise fun p q => p.assessment_date < q.assessment_date) :
    ((recent.Pairwise fun p q => q.percentage_score < p.percentage_score) →
      ∃ q, windowSlope recent = some (.finite q) ∧ q < 0) ∧
    ((recent.Pairwise fun p q => p.percentage_score < q.percentage_score) →
      ∃ q, windowSlope recent = some (.finite q) ∧ 0 < q) := by
  rcases recent with _ | ⟨a, _ | ⟨b, _ | ⟨c, _ | ⟨d, rest⟩⟩⟩⟩
  · simp at h2
  · simp at h2
  · simp only [List.pairwise_cons] at hd
    have hdab : a.assessment_date < b.assessment_date := hd.1 b (by simp)
    have hw : 0 < (b.assessment_date - a.assessment_date) / 7 :=
      div_pos (by linarith) (by norm_num)
    rw [windowSlope_pair a b]
    simp only [jsDiv, if_neg (ne_of_gt hw)]
    constructor
    · intro hs
      simp only [List.pairwise_cons] at hs
      have : b.percentage_score < a.percentage_score := hs.1 b (by simp)
      exact ⟨_, rfl, div_neg_of_neg_of_pos (by linarith) hw⟩
    · intro hs
      simp only [List.pairwise_cons] at hs
      have : a.percentage_score < b.percentage_score := hs.1 b (by simp)
      exact ⟨_, rfl, div_pos (by linarith) hw⟩
  · simp only [List.pairwise_cons] at hd
    have hdac : a.assessment_date < c.assessment_date := hd.1 c (by simp)
    have hw : 0 < (c.assessment_date - a.assessment_date) / 7 :=
      div_pos (by linarith) (by norm_num)
    rw [windowSlope_triple a b c]
    simp only [jsDiv, if_neg (ne_of_gt hw)]
    constructor
    · intro hs
      simp only [List.pairwise_cons] at hs
      have : c.percentage_score < a.percentage_score := hs.1 c (by simp)
      exact ⟨_, rfl, div_neg_of_neg_of_pos (by linarith) hw⟩
    · intro hs
      simp only [List.pairwise_cons] at hs
      have : a.percentage_score < c.percentage_score := hs.1 c (by simp)
      exact ⟨_, rfl, div_pos (by linarith) hw⟩
  · have hrest : rest = [] := by
      simp only [List.length_cons] at h4
      exact List.length_eq_zero.mp (by omega)
    subst hrest
    simp only [List.pairwise_cons] at hd
    have hdad : a.assessment_date < d.assessment_date := hd.1 d (by simp)
    have hw : 0 < (d.assessment_date - a.assessment_date) / 7 :=
      div_pos (by linarith) (by norm_num)
    rw [windowSlope_quad a b c d]
    simp only [jsDiv, if_neg (ne_of_gt hw)]
    constructor
    · intro hs
      simp only [List.pairwise_cons] at hs
      have h1 : d.percentage_score < a.percentage_score := hs.1 d (by simp)
      have h2' : c.percentage_score < b.percentage_score := hs.2.1 c (by simp)
      exact ⟨_, rfl, div_neg_of_neg_of_pos (by linarith) hw⟩
    · intro hs
      simp only [List.pairwise_cons] at hs
      have h1 : a.percentage_score < d.percentage_score := hs.1 d (by simp)
      have h2' : b.percentage_score < c.percentage_score := hs.2.1 c (by simp)
      exact ⟨_, rfl, div_pos (by linarith) hw⟩

/-- **C8.** On a series of at least 2 assessments with strictly increasing
dates, strictly decreasing scores make `calculateTrajectorySlope` return a
finite negative value, and strictly increasing scores a finite positive
value. -/
theorem trajectorySlope_sign (l : List ODIAssessment) (hlen : 2 ≤ l.length)
    (hd : l.Pairwise fun p q => p.assessment_date < q.assessment_date) :
    ((l.Pairwise fun p q => q.percentage_score < p.percentage_score) →
      ∃ q, calculateTrajectorySlope l = some (.finite q) ∧ q < 0) ∧
    ((l.Pairwise fun p q => p.percentage_score < q.percentage_score) →
      ∃ q, calculateTrajectorySlope l = some (.finite q) ∧ 0 < q) := by
  have hlen' : ¬ l.length < 2 := by omega
  have hcalc : calculateTrajectorySlope l = windowSlope (l.drop (l.length - 4)) := by
    simp [calculateTrajectorySlope, hlen']
  have hsub := List.drop_sublist (l.length - 4) l
  have h2 : 2 ≤ (l.drop (l.length - 4)).length := by
    rw [List.length_drop]; omega
  have h4 : (l.drop (l.length - 4)).length ≤ 4 := by
    rw [List.length_drop]; omega
  constructor
  · intro hs
    rw [hcalc]
    exact (windowSlope_sign_cases _ h2 h4 (hd.sublist hsub)).1 (hs.sublist hsub)
  · intro hs
    rw [hcalc]
    exact (windowSlope_sign_cases _ h2 h4 (hd.sublist hsub)).2 (hs.sublist hsub)

/-- Witness for C8: a strictly improving (decreasing) and a strictly
worsening (increasing) concrete series. -/
theorem trajectorySlope_sign_witness :
    (∃ q, calculateTrajectorySlope
      [⟨"a", 0, 50, false⟩, ⟨"b", 7, 40, false⟩, ⟨"c", 14, 30, false⟩]
        = some (.finite q) ∧ q < 0) ∧
    (∃ q, calculateTrajectorySlope
      [⟨"a", 0, 30, false⟩, ⟨"b", 7, 40, false⟩]
        = some (.finite q) ∧ 0 < q) :=
  ⟨(trajectorySlope_sign
      [⟨"a", 0, 50, false⟩, ⟨"b", 7, 40, false⟩, ⟨"c", 14, 30, false⟩]
      (by norm_num) (by norm_num [List.pairwise_cons])).1
      (by norm_num [List.pairwise_cons]),
   (trajectorySlope_sign [⟨"a", 0, 30, false⟩, ⟨"b", 7, 40, false⟩]
      (by norm_num) (by norm_num [List.pairwise_cons])).2
      (by norm_num [List.pairwise_cons])⟩

/-! ### C10: a late flagged baseline yields a negative day count -/

/-- **C10.**  In a date-ascending series of whole-day dates (the
`assessment_date` column has SQL type `date`), if the flagged baseline that
`find` resolves is dated after some assessment whose score is at least 10
points lower, the chronological scan triggers at or before that earlier
assessment and `calculateTimeToMCID` returns a negative day count. -/
theorem timeToMCID_can_be_negative (l : List ODIAssessment) (b x : ODIAssessment)
    (hdays : ∀ a ∈ l, ∃ k : ℤ, a.assessment_date = (k : ℚ))
    (hsorted : l.Pairwise fun p q => p.assessment_date ≤ q.assessment_date)
    (hbase : l.find? (fun a => a.is_baseline) = some b)
    (hx : x ∈ l) (hxdate : x.assessment_date < b.assessment_date)
    (hximp : 10 ≤ b.percentage_score - x.percentage_score) :
    ∃ d : ℤ, calculateTimeToMCID l = some d ∧ d < 0 := by
  have hbmem : b ∈ l := List.mem_of_find?_eq_some hbase
  have hxb : x ≠ b := fun h => absurd hxdate (by rw [h]; exact lt_irrefl _)
  have hlen : 2 ≤ l.length := by
    rcases l with _ | ⟨y, ys⟩
    · simp at hx
    · rcases ys with _ | ⟨z, zs⟩
      · obtain rfl : x = y := by simpa using hx
        obtain rfl : b = x := by simpa using hbmem
        exact absurd rfl (Ne.symm hxb)
      · simp [List.length_cons]
  have hlen' : ¬ l.length < 2 := by omega
  have hbl : baselineOf l = some b := by simp [baselineOf, hbase]
  have hpx : (fun a => decide
      (ODI_MCID_THRESHOLD ≤ b.percentage_score - a.percentage_score)) x = true := by
    simpa [ODI_MCID_THRESHOLD] using hximp
  have hfs : (l.find? fun a => decide
      (ODI_MCID_THRESHOLD ≤ b.percentage_score - a.percentage_score)).isSome := by
    rw [List.find?_isSome]
    exact ⟨x, hx, hpx⟩
  obtain ⟨e, he⟩ := Option.isSome_iff_exists.mp hfs
  have hemem : e ∈ l := List.mem_of_find?_eq_some he
  have hedate : e.assessment_date ≤ x.assessment_date := by
    rcases find?_min_of_pairwise hsorted he x hx hpx with rfl | hle
    · exact le_refl _
    · exact hle
  obtain ⟨ke, hke⟩ := hdays e hemem
  obtain ⟨kb, hkb⟩ := hdays b hbmem
  have hklt : ke < kb := by
    have : (ke : ℚ) < (kb : ℚ) := by
      rw [← hke, ← hkb]
      exact lt_of_le_of_lt hedate hxdate
    exact_mod_cast this
  refine ⟨ke - kb, ?_, by omega⟩
  have hceil : ⌈e.assessment_date - b.assessment_date⌉ = ke - kb := by
    rw [hke, hkb]
    exact_mod_cast Int.ceil_intCast (ke - kb)
  simp [calculateTimeToMCID, hlen', hbl, he, hceil]

/-- Witness for C10: the flagged baseline (55 on day 7) is dated after an
assessment scoring 40 on day 0; the scan triggers on day 0 and returns −7. -/
theorem timeToMCID_can_be_negative_witness :
    ∃ d : ℤ, calculateTimeToMCID
      [⟨"a", 0, 40, false⟩, ⟨"b", 7, 55, true⟩] = some d ∧ d < 0 := by
  refine timeToMCID_can_be_negative
    [⟨"a", 0, 40, false⟩, ⟨"b", 7, 55, true⟩] ⟨"b", 7, 55, true⟩ ⟨"a", 0, 40, false⟩
    ?_ ?_ ?_ ?_ ?_ ?_
  · intro a ha
    simp only [List.mem_cons, List.not_mem_nil, or_false] at ha
    rcases ha with rfl | rfl
    · exact ⟨0, by norm_num⟩
    · exact ⟨7, by norm_num⟩
  · norm_num [List.pairwise_cons]
  · norm_num [List.find?]
  · simp
  · norm_num
  · norm_num

/-! ### C5: pain–function correlation -/

/-- A list sum of mapped values as a sum over the index type. -/
theorem sum_map_eq_sum_get {α : Type} (l : List α) (f : α → ℚ) :
    (l.map f).sum = ∑ i : Fin l.length, f (l.get i) := by
  conv_lhs => rw [← List.ofFn_get l]
  rw [List.map_ofFn]
  exact List.sum_ofFn

/-- Cauchy–Schwarz for list sums. -/
theorem list_cauchy_schwarz {α : Type} (l : List α) (f g : α → ℚ) :
    ((l.map fun x => f x * g x).sum) ^ 2 ≤
      ((l.map fun x => f x * f x).sum) * ((l.map fun x => g x * g x).sum) := by
  rw [sum_map_eq_sum_get, sum_map_eq_sum_get, sum_map_eq_sum_get]
  have h := Finset.sum_mul_sq_le_sq_mul_sq Finset.univ
    (fun i : Fin l.length => f (l.get i)) (fun i : Fin l.length => g (l.get i))
  simpa [pow_two] using h

/-- Expansion of a centred product sum. -/
theorem sum_map_center {α : Type} (l : List α) (f g : α → ℚ) (c d : ℚ) :
    (l.map fun x => (f x - c) * (g x - d)).sum =
      (l.map fun x => f x * g x).sum - c * (l.map g).sum - d * (l.map f).sum
        + l.length * (c * d) := by
  induction l with
  | nil => simp
  | cons x xs ih =>
    simp only [List.map_cons, List.sum_cons, List.length_cons, ih]
    push_cast
    ring

/-- The scaled Cauchy–Schwarz step for the Pearson bound, stated over plain
rationals. -/
theorem centered_cs_scaled (n SX SY SXY SXX SYY E1 E2 E3 : ℚ)
    (hnpos : 0 < n)
    (h1 : E1 = SXY - SX / n * SY - SY / n * SX + n * (SX / n * (SY / n)))
    (h2 : E2 = SXX - SX / n * SX - SX / n * SX + n * (SX / n * (SX / n)))
    (h3 : E3 = SYY - SY / n * SY - SY / n * SY + n * (SY / n * (SY / n)))
    (hcs : E1 ^ 2 ≤ E2 * E3) :
    (n * SXY - SX * SY) ^ 2 ≤ (n * SXX - SX * SX) * (n * SYY - SY * SY) := by
  have hne : n ≠ 0 := ne_of_gt hnpos
  have g1 : n * E1 = n * SXY - SX * SY := by rw [h1]; field_simp; ring
  have g2 : n * E2 = n * SXX - SX * SX := by rw [h2]; field_simp; ring
  have g3 : n * E3 = n * SYY - SY * SY := by rw [h3]; field_simp; ring
  calc (n * SXY - SX * SY) ^ 2 = (n * E1) ^ 2 := by rw [g1]
    _ = n ^ 2 * E1 ^ 2 := by ring
    _ ≤ n ^ 2 * (E2 * E3) := mul_le_mul_of_nonneg_left hcs (sq_nonneg n)
    _ = (n * E2) * (n * E3) := by ring
    _ = (n * SXX - SX * SX) * (n * SYY - SY * SY) := by rw [g2, g3]

/-- The Pearson numerator squared is bounded by the radicand. -/
theorem pearson_numerator_sq_le (pairs : List (ℚ × ℚ)) (hne : pairs ≠ []) :
    ((pairs.length : ℚ) * (pairs.map fun p => p.1 * p.2).sum
        - (pairs.map fun p => p.1).sum * (pairs.map fun p => p.2).sum) ^ 2 ≤
      ((pairs.length : ℚ) * (pairs.map fun p => p.1 * p.1).sum
        - (pairs.map fun p => p.1).sum * (pairs.map fun p => p.1).sum) *
      ((pairs.length : ℚ) * (pairs.map fun p => p.2 * p.2).sum
        - (pairs.map fun p => p.2).sum * (pairs.map fun p => p.2).sum) := by
  have hnpos : (0:ℚ) < (pairs.length : ℚ) := by
    exact_mod_cast List.length_pos.mpr hne
  have h1 := sum_map_center pairs (fun p => p.1) (fun p => p.2)
    ((pairs.map fun q => q.1).sum / (pairs.length : ℚ))
    ((pairs.map fun q => q.2).sum / (pairs.length : ℚ))
  have h2 := sum_map_center pairs (fun p => p.1) (fun p => p.1)
    ((pairs.map fun q => q.1).sum / (pairs.length : ℚ))
    ((pairs.map fun q => q.1).sum / (pairs.length : ℚ))
  have h3 := sum_map_center pairs (fun p => p.2) (fun p => p.2)
    ((pairs.map fun q => q.2).sum / (pairs.length : ℚ))
    ((pairs.map fun q => q.2).sum / (pairs.length : ℚ))
  have hcs := list_cauchy_schwarz pairs
    (fun p => p.1 - (pairs.map fun q => q.1).sum / (pairs.length : ℚ))
    (fun p => p.2 - (pairs.map fun q => q.2).sum / (pairs.length : ℚ))
  exact centered_cs_scaled _ _ _ _ _ _ _ _ _ hnpos h1 h2 h3 hcs

/-- The element chosen by `closestVAS` is among the candidates and minimises
the absolute date gap over all of them. -/
theorem closestVAS_choice (t : ℚ) (v : VASScore) (rest : List VASScore) :
    (closestVAS t v rest = v ∨ closestVAS t v rest ∈ rest) ∧
    (∀ w, (w = v ∨ w ∈ rest) →
      |(closestVAS t v rest).recorded_date - t| ≤ |w.recorded_date - t|) := by
  induction rest generalizing v with
  | nil =>
    refine ⟨Or.inl rfl, ?_⟩
    rintro w (rfl | hw)
    · exact le_refl _
    · simp at hw
  | cons r rs ih =>
    have hstep : closestVAS t v (r :: rs)
        = closestVAS t
          (if |r.recorded_date - t| < |v.recorded_date - t| then r else v) rs := rfl
    by_cases hc : |r.recorded_date - t| < |v.recorded_date - t|
    · rw [hstep, if_pos hc]
      obtain ⟨hmem, hmin⟩ := ih r
      constructor
      · rcases hmem with h | h
        · exact Or.inr (by simp [h])
        · exact Or.inr (by simp [h])
      · rintro w (rfl | hw)
        · exact le_trans (hmin r (Or.inl rfl)) (le_of_lt hc)
        · rcases List.mem_cons.mp hw with rfl | hw'
          · exact hmin w (Or.inl rfl)
          · exact hmin w (Or.inr hw')
    · rw [hstep, if_neg hc]
      obtain ⟨hmem, hmin⟩ := ih v
      constructor
      · rcases hmem with h | h
        · exact Or.inl h
        · exact Or.inr (by simp [h])
      · rintro w (rfl | hw)
        · exact hmin w (Or.inl rfl)
        · rcases List.mem_cons.mp hw with rfl | hw'
          · exact le_trans (hmin v (Or.inl rfl)) (le_of_not_lt hc)
          · exact hmin w (Or.inr hw')

/-- Every matched pair comes from an assessment and its gap-minimising pain
reading within 3 days, rescaled by 10. -/
theorem matchedPairs_mem (odiAssessments : List ODIAssessment)
    (vasScores : List VASScore) (x y : ℚ)
    (h : (x, y) ∈ matchedPairs odiAssessments vasScores) :
    ∃ o ∈ odiAssessments, ∃ v ∈ vasScores,
      x = o.percentage_score ∧ y = v.pain_score * 10 ∧
      |v.recorded_date - o.assessment_date| ≤ 3 ∧
      ∀ w ∈ vasScores,
        |v.recorded_date - o.assessment_date| ≤ |w.recorded_date - o.assessment_date| := by
  rcases vasScores with _ | ⟨v0, rest⟩
  · simp [matchedPairs] at h
  · rw [matchedPairs] at h
    obtain ⟨o, ho, hsome⟩ := List.mem_filterMap.mp h
    dsimp only at hsome
    by_cases hgap :
        |(closestVAS o.assessment_date v0 rest).recorded_date - o.assessment_date| ≤ 3
    · rw [if_pos hgap] at hsome
      obtain ⟨rfl, rfl⟩ :
          o.percentage_score = x
            ∧ (closestVAS o.assessment_date v0 rest).pain_score * 10 = y := by
        simpa using hsome
      refine ⟨o, ho, closestVAS o.assessment_date v0 rest, ?_, rfl, rfl, hgap, ?_⟩
      · rcases (closestVAS_choice o.assessment_date v0 rest).1 with h' | h'
        · simp [h']
        · simp [h']
      · intro w hw
        refine (closestVAS_choice o.assessment_date v0 rest).2 w ?_
        rcases List.mem_cons.mp hw with rfl | h'
        · exact Or.inl rfl
        · exact Or.inr h'
    · rw [if_neg hgap] at hsome
      cases hsome

/-- **C5.** `calculatePainFunctionCorrelation` is `null` below 3 assessments
or 3 pain readings, and below 3 surviving matched pairs; every surviving pair
matches an assessment with its closest pain reading (gap ≤ 3 days, rescaled
by 10); a zero denominator yields `null`; and any returned value — the pair
`(numerator, radicand)` standing for `numerator / √radicand` — satisfies
`numerator² ≤ radicand` with `radicand > 0`, i.e. the correlation lies in
[-1, 1]. -/
theorem painFunctionCorrelation_spec (odiAssessments : List ODIAssessment)
    (vasScores : List VASScore) :
    (odiAssessments.length < 3 ∨ vasScores.length < 3 →
      calculatePainFunctionCorrelation odiAssessments vasScores = none) ∧
    ((matchedPairs odiAssessments vasScores).length < 3 →
      calculatePainFunctionCorrelation odiAssessments vasScores = none) ∧
    (∀ x y, (x, y) ∈ matchedPairs odiAssessments vasScores →
      ∃ o ∈ odiAssessments, ∃ v ∈ vasScores,
        x = o.percentage_score ∧ y = v.pain_score * 10 ∧
        |v.recorded_date - o.assessment_date| ≤ 3 ∧
        ∀ w ∈ vasScores,
          |v.recorded_date - o.assessment_date| ≤ |w.recorded_date - o.assessment_date|) ∧
    (∀ num rad,
      calculatePainFunctionCorrelation odiAssessments vasScores = some (num, rad) →
      num ^ 2 ≤ rad ∧ 0 < rad) := by
  refine ⟨?_, ?_, ?_, ?_⟩
  · intro h
    simp [calculatePainFunctionCorrelation, h]
  · intro hp
    by_cases hg : odiAssessments.length < 3 ∨ vasScores.length < 3
    · simp [calculatePainFunctionCorrelation, hg]
    · simp [calculatePainFunctionCorrelation, hg, hp]
  · exact fun x y h => matchedPairs_mem odiAssessments vasScores x y h
  · intro num rad h
    simp only [calculatePainFunctionCorrelation] at h
    split at h
    · cases h
    · split at h
      · cases h
      · split at h
        · cases h
        · next hguard hpairs hrad =>
          obtain ⟨rfl, rfl⟩ :
              ((matchedPairs odiAssessments vasScores).length : ℚ)
                  * ((matchedPairs odiAssessments vasScores).map fun p => p.1 * p.2).sum
                - ((matchedPairs odiAssessments vasScores).map fun p => p.1).sum
                  * ((matchedPairs odiAssessments vasScores).map fun p => p.2).sum = num
              ∧ (((matchedPairs odiAssessments vasScores).length : ℚ)
                  * ((matchedPairs odiAssessments vasScores).map fun p => p.1 * p.1).sum
                - ((matchedPairs odiAssessments vasScores).map fun p => p.1).sum
                  * ((matchedPairs odiAssessments vasScores).map fun p => p.1).sum)
                * (((matchedPairs odiAssessments vasScores).length : ℚ)
                  * ((matchedPairs odiAssessments vasScores).map fun p => p.2 * p.2).sum
                - ((matchedPairs odiAssessments vasScores).map fun p => p.2).sum
                  * ((matchedPairs odiAssessments vasScores).map fun p => p.2).sum) = rad := by
            simpa using h
          have hne : matchedPairs odiAssessments vasScores ≠ [] := by
            intro hnil
            rw [hnil] at hpairs
            simp at hpairs
          have hbound := pearson_numerator_sq_le (matchedPairs odiAssessments vasScores) hne
          refine ⟨hbound, lt_of_le_of_ne (le_trans (sq_nonneg _) hbound) (Ne.symm hrad)⟩

/-- Witness for C5: three perfectly aligned, linearly related series give
numerator 2400 and radicand 5760000 = 2400², a correlation of exactly 1. -/
theorem painFunctionCorrelation_spec_witness :
    ((2400:ℚ)) ^ 2 ≤ 5760000 ∧ (0:ℚ) < 5760000 :=
  (painFunctionCorrelation_spec
    [⟨"a", 0, 20, false⟩, ⟨"b", 7, 40, false⟩, ⟨"c", 14, 60, false⟩]
    [⟨0, 2⟩, ⟨7, 4⟩, ⟨14, 6⟩]).2.2.2 2400 5760000
    (by norm_num [calculatePainFunctionCorrelation, matchedPairs, closestVAS,
      List.filterMap, List.foldl])

end Analytics

